/-
Verification of the dynactl artifact synchronization engine.

This file shallowly embeds the manifest model, component normalizer, pull
orchestrator, credential resolver, mirror/retag engine, archive packager and
credential-store persistence of the dynactl repository, and proves the
specification's claims about them.  Filesystem and network effects are made
explicit: pull/push outcomes are oracles passed as parameters, directory trees
are association lists of relative paths, and permission bits are recorded as
data.  Go string functions (strings.Split, strings.LastIndex, strings.Contains,
strings.TrimPrefix, ...) are modelled by structurally recursive functions over
character lists so that every definition evaluates by kernel reduction.
-/
import Mathlib

set_option autoImplicit false

namespace Dynactl

deriving instance DecidableEq for Except

/-! ## Character-list models of the Go `strings` functions -/

/-- `startsWithList pre s` is Go's `strings.HasPrefix(s, pre)` on char lists. -/
def startsWithList : List Char → List Char → Bool
  | [], _ => true
  | _ :: _, [] => false
  | x :: xs, y :: ys => x = y && startsWithList xs ys

/-- Go's `strings.HasPrefix(s, pre)`. -/
def goHasPre (s pre : String) : Bool :=
  startsWithList pre.toList s.toList

/-- Go's `strings.TrimPrefix(s, pre)`. -/
def goTrimPre (s pre : String) : String :=
  if goHasPre s pre then String.mk (s.toList.drop pre.toList.length) else s

/-- Go's `strings.HasSuffix(s, suf)`. -/
def goHasSuf (s suf : String) : Bool :=
  startsWithList suf.toList.reverse s.toList.reverse

/-- Go's `strings.TrimSuffix(s, suf)`. -/
def goTrimSuf (s suf : String) : String :=
  if goHasSuf s suf then String.mk (s.toList.take (s.toList.length - suf.toList.length)) else s

/-- Go's `strings.Split(s, sep)` for a one-character separator, on char lists.
    Always returns a non-empty list of fields. -/
def splitOnChar (c : Char) : List Char → List (List Char)
  | [] => [[]]
  | x :: xs =>
    match splitOnChar c xs with
    | [] => if x = c then [[], []] else [[x]]
    | y :: ys => if x = c then [] :: y :: ys else (x :: y) :: ys

/-- Go's `strings.Split(s, sep)` for a one-character separator. -/
def goSplitChar (s : String) (c : Char) : List String :=
  (splitOnChar c s.toList).map String.mk

/-- Splits a char list at the LAST occurrence of `c` (Go's `strings.LastIndex`
    followed by the two slices `s[:i]` and `s[i+1:]`); `none` when absent. -/
def splitAtLastChar (c : Char) : List Char → Option (List Char × List Char)
  | [] => none
  | x :: xs =>
    match splitAtLastChar c xs with
    | some (pre, post) => some (x :: pre, post)
    | none => if x = c then some ([], xs) else none

/-- `isInfixOfList pat s` is Go's `strings.Contains(s, pat)` on char lists. -/
def isInfixOfList (pat : List Char) : List Char → Bool
  | [] => pat.isEmpty
  | y :: ys => startsWithList pat (y :: ys) || isInfixOfList pat ys

/-- Go's `strings.Contains(s, pat)`. -/
def containsSub (s pat : String) : Bool :=
  isInfixOfList pat.toList s.toList

/-- Go's `strings.SplitN(s, sep, 2)` for a one-character separator. -/
def goSplitN2 (s : String) (c : Char) : List String :=
  match splitOnChar c s.toList with
  | [] => []
  | [x] => [String.mk x]
  | x :: rest => [String.mk x, String.mk (List.intercalate [c] rest)]

/-! ## Manifest model (`pkg/utils`, `ArtifactManifest` / `HelmChart`) -/

/-- `HelmChart` record of the manifest (cluster.go utils part, lines 234-242). -/
structure HelmChart where
  name : String
  version : String
  appVersion : String := ""
  filename : String := ""
  harborPath : String := ""
  deriving Repr, DecidableEq

/-- `ArtifactManifest`: the fields the synchronization engine consumes.  Images
    and models are flat lists of OCI URI strings; charts are structured records
    (cluster.go utils part, lines 219-232). -/
structure ArtifactManifest where
  customerID : String := ""
  customerName : String := ""
  releaseVersion : String := ""
  onboardingDate : String := ""
  images : List String := []
  models : List String := []
  charts : List HelmChart := []
  deriving Repr, DecidableEq

/-- `Component`: the normalized artifact descriptor (cluster.go utils part,
    lines 269-276). -/
structure Component where
  name : String
  type : String
  uri : String
  tag : String
  digest : String := ""
  mediaType : String
  deriving Repr, DecidableEq

/-- `extractNameFromURI` (cluster.go utils part, lines 510-519): strip a
    trailing `:tag`, then take the last `/`-separated path segment. -/
def extractNameFromURI (uri : String) : String :=
  let path := (goSplitChar uri ':').headD uri
  let pathParts := goSplitChar path '/'
  pathParts.getLastD uri

/-- The image arm of the normalizer loop (cluster.go utils part, lines 471-480). -/
def imageComponent (imgURI : String) : Component :=
  let uri := goTrimPre imgURI "oci://"
  { name := extractNameFromURI uri, type := "containerImage", uri := uri,
    tag := "", mediaType := "application/vnd.oci.image.manifest.v1+json" }

/-- The model arm of the normalizer loop (cluster.go utils part, lines 483-492). -/
def modelComponent (modelURI : String) : Component :=
  let uri := goTrimPre modelURI "oci://"
  { name := extractNameFromURI uri, type := "mlModel", uri := uri,
    tag := "", mediaType := "application/vnd.dynamoai.model.v1+tar.gz" }

/-- The chart arm of the normalizer loop (cluster.go utils part, lines 495-504). -/
def chartComponent (chart : HelmChart) : Component :=
  let uri := goTrimPre chart.harborPath "oci://"
  { name := chart.name, type := "helmChart", uri := uri,
    tag := chart.version, mediaType := "application/vnd.oci.image.manifest.v1+json" }

/-- `convertManifestToComponents` (cluster.go utils part, lines 467-507):
    appends image components, then model components, then chart components,
    each in manifest order. -/
def convertManifestToComponents (manifest : ArtifactManifest) : List Component :=
  manifest.images.map imageComponent
    ++ manifest.models.map modelComponent
    ++ manifest.charts.map chartComponent

/-! ## Pull orchestrator (cluster.go utils part, `PullResult` / `pullAllArtifacts` /
    `PullArtifacts`).  The network effect of pulling one component
    (`pullSingleArtifact`) is abstracted as an oracle `pull : Component → Option
    String` returning `none` on success and the error message on failure. -/

/-- `PullResult` (cluster.go utils part, lines 279-285).  The wall-clock
    `Duration` field is not modelled. -/
structure PullResult where
  totalArtifacts : Nat
  successCount : Nat
  failedCount : Nat
  errors : List String
  deriving Repr, DecidableEq

/-- One iteration of the `pullAllArtifacts` loop (cluster.go utils part, lines
    396-408): on failure increment `FailedCount` and append one error string; on
    success increment `SuccessCount`. -/
def pullStep (pull : Component → Option String) (result : PullResult)
    (component : Component) : PullResult :=
  match pull component with
  | some e =>
    { result with
      failedCount := result.failedCount + 1,
      errors := result.errors ++ [component.name ++ ": " ++ e] }
  | none =>
    { result with successCount := result.successCount + 1 }

/-- `pullAllArtifacts` (cluster.go utils part, lines 387-412). -/
def pullAllArtifacts (pull : Component → Option String)
    (components : List Component) : PullResult :=
  components.foldl (pullStep pull)
    { totalArtifacts := components.length, successCount := 0, failedCount := 0,
      errors := [] }

/-- `PullArtifacts` (cluster.go utils part, lines 304-330): normalize the
    manifest, pull every component, and report an aggregate error exactly when
    `FailedCount > 0`. -/
def PullArtifacts (pull : Component → Option String)
    (manifest : ArtifactManifest) : Except String Unit :=
  if (pullAllArtifacts pull (convertManifestToComponents manifest)).failedCount > 0 then
    Except.error ("failed to pull "
      ++ toString (pullAllArtifacts pull (convertManifestToComponents manifest)).failedCount
      ++ " artifacts")
  else
    Except.ok ()

/-! ## Reference splitting and target naming -/

/-- `splitRepositoryAndReference` (artifact_pullers.go, lines 253-268): if the
    last `:` exists and no `/` follows it, split there (tag); otherwise if a
    last `@` exists, split there (digest); otherwise no reference. -/
def splitRepositoryAndReference (uri : String) : String × String :=
  let l := uri.toList
  let atSplit : String × String :=
    match splitAtLastChar '@' l with
    | some (pre, post) => (String.mk pre, String.mk post)
    | none => (uri, "")
  match splitAtLastChar ':' l with
  | some (pre, post) =>
    if post.contains '/' then atSplit else (String.mk pre, String.mk post)
  | none => atSplit

/-- The repository path below the original registry hostname: everything after
    the first `/` (mirror_artifacts.go, lines 94-97), empty when there is no
    slash. -/
def repoRemainder (originalRepo : String) : String :=
  match splitOnChar '/' originalRepo.toList with
  | [] => ""
  | [_] => ""
  | _ :: rest => String.mk (List.intercalate ['/'] rest)

/-- `buildTargetRepository` (mirror_artifacts.go, lines 90-103): drop the
    original registry hostname (everything up to the first `/`) and graft the
    remaining hierarchy under the target registry. -/
def buildTargetRepository (targetRegistry originalRepo : String) : String :=
  if repoRemainder originalRepo = "" then goTrimSuf targetRegistry "/"
  else goTrimSuf targetRegistry "/" ++ "/" ++ repoRemainder originalRepo

/-- `assembleTargetReference` (mirror_artifacts.go, lines 105-110). -/
def assembleTargetReference (targetRepo tagOrDigest : String) : String :=
  if goHasPre tagOrDigest "sha256:" then targetRepo ++ "@" ++ tagOrDigest
  else targetRepo ++ ":" ++ tagOrDigest

/-- The target reference computed by `RetagAndPushImage` once `imageName` and
    `imageTag` are extracted (registry_credentials.go legacy part, lines
    284-294): flat `registry:name-tag` for an `amazonaws.com` (ECR) target,
    `registry/images/name:tag` otherwise. -/
def retagImagePushTarget (targetRegistry imageName imageTag : String) : String :=
  if containsSub targetRegistry "amazonaws.com" then
    targetRegistry ++ ":" ++ imageName ++ "-" ++ imageTag
  else
    targetRegistry ++ "/images/" ++ imageName ++ ":" ++ imageTag

/-- The parsing-and-target-computation part of `RetagAndPushImage`
    (registry_credentials.go legacy part, lines 253-298): validate the
    `oci://` prefix, take the last path segment, split it as `name:tag`, and
    compute the push target.  The cache-file existence check and the `oras
    push` invocation are I/O; the function returns the target reference the
    push would use. -/
def retagAndPushImageTarget (image targetRegistry : String) : Except String String :=
  if !goHasPre image "oci://" then
    Except.error ("invalid image URI (missing oci://): " ++ image)
  else
    let imagePath := goTrimPre image "oci://"
    let parts := goSplitChar imagePath '/'
    let last := parts.getLastD imagePath
    match goSplitN2 last ':' with
    | [imageName, imageTag] =>
      Except.ok (retagImagePushTarget targetRegistry imageName imageTag)
    | _ => Except.error ("invalid image format (expected name:tag): " ++ last)

/-! ## Credential resolver (registry_credentials.go, lines 20-243) -/

/-- `RegistryCredential`: the persisted credential fields (lines 20-25). -/
structure RegistryCredential where
  username : String := ""
  password : String := ""
  identityToken : String := ""
  accessToken : String := ""
  deriving Repr, DecidableEq

/-- `oras_auth.Credential`: the in-memory credential handed to transfers. -/
structure OrasCredential where
  username : String := ""
  password : String := ""
  refreshToken : String := ""
  accessToken : String := ""
  deriving Repr, DecidableEq

/-- `oras_auth.EmptyCredential`: the anonymous credential. -/
def emptyCredential : OrasCredential := {}

/-- What the OS default keychain (`authn.DefaultKeychain.Resolve` followed by
    `Authorization()`) can report for a registry host. -/
inductive KeychainOutcome where
  | resolveError
  | anonymous
  | authorizationError
  | nilConfig
  | config (username password identityToken registryToken : String)
  deriving Repr, DecidableEq

/-- `resolveFromDefaultKeychain` (lines 117-150): every keychain failure mode is
    collapsed to "not found" (the Go function returns a nil error on all of
    them), and an all-empty config also counts as not found. -/
def resolveFromDefaultKeychain (outcome : KeychainOutcome) : Option OrasCredential :=
  match outcome with
  | .resolveError => none
  | .anonymous => none
  | .authorizationError => none
  | .nilConfig => none
  | .config u p i r =>
    if u = "" ∧ p = "" ∧ i = "" ∧ r = "" then none
    else some { username := u, password := p, refreshToken := i, accessToken := r }

/-- The engine's credential store contents: registry host → credential. -/
abbrev CredStore := List (String × RegistryCredential)

/-- `GetRegistryCredential` (lines 78-90), with the outcome of
    `loadCredentialStore` (a read of the on-disk store, which can fail) passed
    explicitly. -/
def GetRegistryCredential (store : Except String CredStore) (registry : String) :
    Except String (Option RegistryCredential) :=
  if registry = "" then Except.error "registry cannot be empty"
  else
    match store with
    | Except.error e => Except.error e
    | Except.ok s => Except.ok (s.lookup registry)

/-- `convertStoredCredential` (lines 152-159). -/
def convertStoredCredential (storeCred : RegistryCredential) : OrasCredential :=
  { username := storeCred.username, password := storeCred.password,
    refreshToken := storeCred.identityToken, accessToken := storeCred.accessToken }

/-- `resolveRegistryCredential` (lines 93-115): OS keychain first, the engine's
    own store second, the anonymous credential when neither yields anything. -/
def resolveRegistryCredential (keychain : KeychainOutcome)
    (store : Except String CredStore) (registry : String) :
    Except String OrasCredential :=
  if registry = "" then Except.error "registry cannot be empty"
  else
    match resolveFromDefaultKeychain keychain with
    | some cred => Except.ok cred
    | none =>
      match GetRegistryCredential store registry with
      | Except.error e => Except.error e
      | Except.ok (some storeCred) => Except.ok (convertStoredCredential storeCred)
      | Except.ok none => Except.ok emptyCredential

/-- Association-list update for `store.Credentials[registry] = cred`
    (SaveRegistryCredential, line 49). -/
def insertCred (s : CredStore) (registry : String) (cred : RegistryCredential) :
    CredStore :=
  if s.any (fun e => e.1 = registry) then
    s.map (fun e => if e.1 = registry then (registry, cred) else e)
  else s ++ [(registry, cred)]

/-- The filesystem effect of a successful credential-store save: the permission
    bits passed to `os.MkdirAll` and `os.OpenFile` and the persisted map. -/
structure SaveEffect where
  dirPerm : Nat
  filePerm : Nat
  contents : CredStore
  deriving Repr, DecidableEq

/-- `SaveRegistryCredential` (registry_credentials.go, lines 35-75): reject an
    empty registry, load the store, insert the credential, then
    `MkdirAll(dir, 0o700)` and `OpenFile(path, CREATE|WRONLY|TRUNC, 0o600)`. -/
def SaveRegistryCredential (store : Except String CredStore) (registry : String)
    (cred : RegistryCredential) : Except String SaveEffect :=
  if registry = "" then Except.error "registry cannot be empty"
  else
    match store with
    | Except.error e => Except.error ("failed to load credential store: " ++ e)
    | Except.ok s =>
      Except.ok
        { dirPerm := 0o700, filePerm := 0o600, contents := insertCred s registry cred }

/-! ## Pull/mirror options (commands/artifacts.go and utils part) -/

/-- `PullOptions`: the three category filters. -/
structure PullOptions where
  includeImages : Bool
  includeModels : Bool
  includeCharts : Bool
  deriving Repr, DecidableEq

/-- `MirrorOptions` (utils part of artifacts.go, lines 262-266). -/
structure MirrorOptions where
  includeImages : Bool
  includeModels : Bool
  includeCharts : Bool
  deriving Repr, DecidableEq

/-- `NormalizeMirrorOptions` (utils part of artifacts.go, lines 269-278). -/
def NormalizeMirrorOptions (opts : MirrorOptions) : MirrorOptions :=
  if !opts.includeImages && !opts.includeModels && !opts.includeCharts then
    { includeImages := true, includeModels := true, includeCharts := true }
  else opts

/-- `MirrorOptionsFromPull` (utils part of artifacts.go, lines 281-287). -/
def MirrorOptionsFromPull (opts : PullOptions) : MirrorOptions :=
  { includeImages := opts.includeImages, includeModels := opts.includeModels,
    includeCharts := opts.includeCharts }

/-- Pull-flag handling in `createPullCmd` (commands/artifacts.go, lines 43-48):
    with no filter flags every category is included. -/
def pullOptionsFromFlags (images models charts : Bool) : PullOptions :=
  let filtersSpecified := images || models || charts
  { includeImages := !filtersSpecified || images,
    includeModels := !filtersSpecified || models,
    includeCharts := !filtersSpecified || charts }

/-- Pull-option defaulting in `createMirrorCmd` (commands/artifacts.go, lines
    111-125): with no filter flags only images are included. -/
def mirrorOptionsFromFlags (images models charts : Bool) : PullOptions :=
  if images || models || charts then
    { includeImages := images, includeModels := models, includeCharts := charts }
  else
    { includeImages := true, includeModels := false, includeCharts := false }

/-- Modelled from the spec: `NormalizePullOptions` is called by
    `processManifest` and `extractRegistryFromManifest`, but its definition is
    not in the source tree.  Spec §3: "normalization guarantees at least one
    flag is true — if a caller supplies all-false (no filters), normalization
    substitutes include-everything for pull"; §8: "normalizing an all-false
    `PullOptions` for pull yields the all-true set". -/
def NormalizePullOptions (opts : PullOptions) : PullOptions :=
  if !opts.includeImages && !opts.includeModels && !opts.includeCharts then
    { includeImages := true, includeModels := true, includeCharts := true }
  else opts

/-- The filtered artifact count computed by `processManifest`
    (commands/artifacts.go, lines 214-223). -/
def filteredArtifactTotal (options : PullOptions) (manifest : ArtifactManifest) : Nat :=
  (if options.includeImages then manifest.images.length else 0) +
  (if options.includeModels then manifest.models.length else 0) +
  (if options.includeCharts then manifest.charts.length else 0)

/-- The empty-manifest decision of `processManifest` (commands/artifacts.go,
    lines 202-248): after normalizing the options, a zero filtered count is an
    error unless the manifest path contains `testdata`, in which case the pull
    is skipped as a success.  `Except.ok true` means "proceed to pull",
    `Except.ok false` means "success no-op". -/
def processManifestCheck (manifestPath : String) (manifest : ArtifactManifest)
    (options : PullOptions) : Except String Bool :=
  if filteredArtifactTotal (NormalizePullOptions options) manifest = 0 then
    if containsSub manifestPath "testdata" then Except.ok false
    else Except.error "no artifacts found in manifest"
  else Except.ok true

/-! ## Mirror/retag engine (mirror_artifacts.go, lines 15-110).  The effect of
    `pushImageFromTar` (tarball read + crane push) is abstracted as an oracle
    `push : String → String → Option String` from (tar path, target reference)
    to `none` on success or the error message on failure. -/

/-- The per-image preparation of the `mirrorContainerImages` loop
    (mirror_artifacts.go, lines 49-62): strip `oci://`, split repository and
    reference, reject empty parts, and compute the cache tar path and the
    target reference.  `filepath.Join` is modelled as `/`-concatenation. -/
def imagePushPlan (cacheDir targetRegistry imageRef : String) :
    Except String (String × String) :=
  let componentRef := goTrimPre imageRef "oci://"
  let (repoPart, tagOrDigest) := splitRepositoryAndReference componentRef
  if repoPart = "" then Except.error ("invalid image reference: " ++ imageRef)
  else if tagOrDigest = "" then
    Except.error ("image reference missing tag or digest: " ++ imageRef)
  else
    let imageName := extractNameFromURI componentRef
    let tarPath := cacheDir ++ "/" ++ imageName ++ ".tar"
    let targetRepo := buildTargetRepository targetRegistry repoPart
    let targetRef := assembleTargetReference targetRepo tagOrDigest
    Except.ok (tarPath, targetRef)

/-- `mirrorContainerImages` (mirror_artifacts.go, lines 44-75): push the images
    in order, returning the `(tarPath, targetRef)` pushes attempted (in order)
    and the first error; the loop returns immediately on a validation or push
    failure. -/
def mirrorContainerImages (push : String → String → Option String)
    (cacheDir targetRegistry : String) : List String →
    List (String × String) × Option String
  | [] => ([], none)
  | imageRef :: rest =>
    match imagePushPlan cacheDir targetRegistry imageRef with
    | Except.error e => ([], some e)
    | Except.ok plan =>
      match push plan.1 plan.2 with
      | some e => ([plan], some e)
      | none =>
        let result := mirrorContainerImages push cacheDir targetRegistry rest
        (plan :: result.1, result.2)

/-! ## Archive packager (artifact_export.go, lines 81-196).  A directory tree
    is modelled as the list of `(relative path, entry)` pairs that
    `filepath.Walk` enumerates; file contents are strings of bytes. -/

/-- A cache-directory entry: a subdirectory or a regular file. -/
inductive FsEntry where
  | dir
  | file (content : String)
  deriving Repr, DecidableEq

/-- The walk enumeration of a directory tree. -/
abbrev FsTree := List (String × FsEntry)

/-- An entry of the gzip-compressed tar stream.  `other` stands for any
    typeflag other than `TypeDir`/`TypeReg` (symlink, fifo, ...). -/
inductive TarEntry where
  | dir (path : String)
  | reg (path : String) (content : String)
  | other (path : String) (typeflag : Nat)
  deriving Repr, DecidableEq

/-- The `json.MarshalIndent` serialization of the manifest written to
    `manifest.json` (artifact_export.go, line 100).  The byte layout stands in
    for Go's; the round-trip property only needs it to be a function of the
    manifest, reproduced byte-for-byte by import. -/
def marshalManifest (manifest : ArtifactManifest) : String :=
  "\x7b\n  \"customer_id\": \"" ++ manifest.customerID ++
  "\",\n  \"customer_name\": \"" ++ manifest.customerName ++
  "\",\n  \"release_version\": \"" ++ manifest.releaseVersion ++
  "\",\n  \"onboarding_date\": \"" ++ manifest.onboardingDate ++
  "\",\n  \"images\": [" ++ String.intercalate ", " (manifest.images.map (fun u => "\"" ++ u ++ "\"")) ++
  "],\n  \"models\": [" ++ String.intercalate ", " (manifest.models.map (fun u => "\"" ++ u ++ "\"")) ++
  "],\n  \"charts\": [" ++ String.intercalate ", " (manifest.charts.map (fun c =>
      "\x7b\"name\": \"" ++ c.name ++ "\", \"version\": \"" ++ c.version ++
      "\", \"filename\": \"" ++ c.filename ++ "\", \"harbor_path\": \"" ++ c.harborPath ++ "\"\x7d")) ++
  "]\n\x7d"

/-- The `os.WriteFile(manifestPath, manifestBytes, 0644)` step of
    `ExportArtifacts` (lines 99-106): create or overwrite `manifest.json` in
    the cache directory.  Where the new file lands in the walk enumeration does
    not affect the file set, so a fresh file is placed at the front. -/
def writeManifestFile (manifest : ArtifactManifest) (cache : FsTree) : FsTree :=
  if cache.any (fun e => e.1 = "manifest.json") then
    cache.map (fun e =>
      if e.1 = "manifest.json" then (e.1, FsEntry.file (marshalManifest manifest)) else e)
  else ("manifest.json", FsEntry.file (marshalManifest manifest)) :: cache

/-- `ExportArtifacts` (artifact_export.go, lines 81-145): write `manifest.json`
    into the cache directory, then walk it, emitting one tar header per entry;
    directory entries carry no bytes, regular files carry their contents. -/
def ExportArtifacts (manifest : ArtifactManifest) (cache : FsTree) : List TarEntry :=
  (writeManifestFile manifest cache).map fun e =>
    match e.2 with
    | FsEntry.dir => TarEntry.dir e.1
    | FsEntry.file content => TarEntry.reg e.1 content

/-- `ExtractArchive` (artifact_export.go, lines 147-196): replay the entry
    stream into the destination tree; `TypeDir` creates a directory, `TypeReg`
    writes a file, and any other typeflag is a hard error. -/
def ExtractArchive : List TarEntry → Except String FsTree
  | [] => Except.ok []
  | TarEntry.dir path :: rest =>
    match ExtractArchive rest with
    | Except.ok tree => Except.ok ((path, FsEntry.dir) :: tree)
    | Except.error e => Except.error e
  | TarEntry.reg path content :: rest =>
    match ExtractArchive rest with
    | Except.ok tree => Except.ok ((path, FsEntry.file content) :: tree)
    | Except.error e => Except.error e
  | TarEntry.other _ typeflag :: _ =>
    Except.error ("unsupported file type in tar: " ++ toString typeflag)

/-! ## Helper lemmas -/

/-- Invariants of the `pullAllArtifacts` fold: the total is never touched, each
    iteration adds exactly one to `successCount + failedCount`, and the error
    list grows by exactly one entry per failure. -/
theorem pullFold_spec (pull : Component → Option String) (cs : List Component) :
    ∀ init : PullResult,
      (cs.foldl (pullStep pull) init).totalArtifacts = init.totalArtifacts ∧
      (cs.foldl (pullStep pull) init).successCount
          + (cs.foldl (pullStep pull) init).failedCount
        = init.successCount + init.failedCount + cs.length ∧
      (cs.foldl (pullStep pull) init).errors.length + init.failedCount
        = init.errors.length + (cs.foldl (pullStep pull) init).failedCount := by
  induction cs with
  | nil => intro init; simp
  | cons c cs ih =>
    intro init
    simp only [List.foldl_cons, List.length_cons]
    obtain ⟨h1, h2, h3⟩ := ih (pullStep pull init c)
    cases hpc : pull c <;>
      simp only [pullStep, hpc, List.length_append, List.length_cons, List.length_nil]
        at h1 h2 h3 ⊢ <;>
      exact ⟨h1, by omega, by omega⟩

/-- `pullAllArtifacts` instantiated at its actual initial accumulator. -/
theorem pullAll_spec (pull : Component → Option String) (cs : List Component) :
    (pullAllArtifacts pull cs).totalArtifacts = cs.length ∧
    (pullAllArtifacts pull cs).successCount + (pullAllArtifacts pull cs).failedCount
      = cs.length ∧
    (pullAllArtifacts pull cs).errors.length = (pullAllArtifacts pull cs).failedCount := by
  obtain ⟨h1, h2, h3⟩ :=
    pullFold_spec pull cs
      { totalArtifacts := cs.length, successCount := 0, failedCount := 0, errors := [] }
  simp only [pullAllArtifacts]
  simp at h1 h2 h3
  exact ⟨h1, by omega, by omega⟩

/-! ## Claims -/

/-- C1: for every component list derived from a manifest, the pull orchestrator
    attempts every item: the returned `PullResult` has `TotalArtifacts` equal to
    the number of components, `SuccessCount + FailedCount = TotalArtifacts`, one
    recorded error string per failed item, and `PullArtifacts` reports an
    aggregate failure if and only if at least one item failed. -/
theorem pull_orchestrator_aggregates (pull : Component → Option String)
    (manifest : ArtifactManifest) :
    (pullAllArtifacts pull (convertManifestToComponents manifest)).totalArtifacts
      = (convertManifestToComponents manifest).length ∧
    (pullAllArtifacts pull (convertManifestToComponents manifest)).successCount
        + (pullAllArtifacts pull (convertManifestToComponents manifest)).failedCount
      = (pullAllArtifacts pull (convertManifestToComponents manifest)).totalArtifacts ∧
    (pullAllArtifacts pull (convertManifestToComponents manifest)).errors.length
      = (pullAllArtifacts pull (convertManifestToComponents manifest)).failedCount ∧
    ((∃ e, PullArtifacts pull manifest = Except.error e)
      ↔ 0 < (pullAllArtifacts pull (convertManifestToComponents manifest)).failedCount) := by
  obtain ⟨h1, h2, h3⟩ := pullAll_spec pull (convertManifestToComponents manifest)
  refine ⟨h1, by omega, h3, ?_⟩
  unfold PullArtifacts
  by_cases hf : 0 < (pullAllArtifacts pull (convertManifestToComponents manifest)).failedCount
  · rw [if_pos hf]
    exact iff_of_true ⟨_, rfl⟩ hf
  · rw [if_neg hf]
    constructor
    · rintro ⟨e, he⟩
      exact Except.noConfusion he
    · intro hpos
      exact absurd hpos hf

/-- C2: for every manifest with `N` total entries across images, models and
    charts, normalization returns exactly `N` components: all image components
    first, then all model components, then all chart components, each group in
    manifest order, with the corresponding kind tags. -/
theorem normalize_ordered (manifest : ArtifactManifest) :
    (convertManifestToComponents manifest).length
      = manifest.images.length + manifest.models.length + manifest.charts.length ∧
    (convertManifestToComponents manifest).take manifest.images.length
      = manifest.images.map imageComponent ∧
    ((convertManifestToComponents manifest).drop manifest.images.length).take
        manifest.models.length
      = manifest.models.map modelComponent ∧
    (convertManifestToComponents manifest).drop
        (manifest.images.length + manifest.models.length)
      = manifest.charts.map chartComponent ∧
    (∀ u, (imageComponent u).type = "containerImage") ∧
    (∀ u, (modelComponent u).type = "mlModel") ∧
    (∀ c, (chartComponent c).type = "helmChart") := by
  unfold convertManifestToComponents
  refine ⟨by simp [Nat.add_assoc], ?_, ?_, ?_, fun _ => rfl, fun _ => rfl, fun _ => rfl⟩
  · rw [List.append_assoc, ← List.length_map manifest.images imageComponent,
      List.take_left]
  · rw [List.append_assoc, ← List.length_map manifest.images imageComponent,
      List.drop_left, ← List.length_map manifest.models modelComponent,
      List.take_left]
  · rw [← List.length_map manifest.images imageComponent,
      ← List.length_map manifest.models modelComponent,
      ← List.length_append, List.drop_left]

/-- C6: with all-false filter flags, the pull command includes every category
    while the mirror command includes images only — and this images-only
    selection survives `MirrorOptionsFromPull` and `NormalizeMirrorOptions`
    (applied inside `MirrorArtifacts`), so pull-default and mirror-default are
    asymmetric. -/
theorem pull_mirror_default_asymmetry :
    pullOptionsFromFlags false false false
      = { includeImages := true, includeModels := true, includeCharts := true } ∧
    mirrorOptionsFromFlags false false false
      = { includeImages := true, includeModels := false, includeCharts := false } ∧
    NormalizeMirrorOptions (MirrorOptionsFromPull (mirrorOptionsFromFlags false false false))
      = { includeImages := true, includeModels := false, includeCharts := false } ∧
    pullOptionsFromFlags false false false ≠ mirrorOptionsFromFlags false false false := by
  refine ⟨rfl, rfl, rfl, ?_⟩
  decide

/-- C10: on the digest-form URI of the function's own documentation,
    `splitRepositoryAndReference` takes the tag branch at the colon inside
    `sha256:...`, returning repository `...foo@sha256` and reference `abcd`
    instead of the documented repository `...foo` and reference `sha256:abcd`. -/
theorem splitRepositoryAndReference_digest_divergence :
    splitRepositoryAndReference "artifacts.dynamo.ai/dynamoai/models/foo@sha256:abcd"
      = ("artifacts.dynamo.ai/dynamoai/models/foo@sha256", "abcd") ∧
    splitRepositoryAndReference "artifacts.dynamo.ai/dynamoai/models/foo@sha256:abcd"
      ≠ ("artifacts.dynamo.ai/dynamoai/models/foo", "sha256:abcd") := by
  constructor
  · decide
  · decide

/-- C3 counterexample: the claim's two naming rules fail on concrete inputs.
    The mirror engine does not flatten for an `amazonaws.com` target — it keeps
    the original hierarchy — and the legacy retag helper does not preserve the
    original hierarchy for a non-flattened target — it emits
    `registry/images/name:tag`. -/
theorem target_naming_counterexample :
    assembleTargetReference
        (buildTargetRepository "exampleaccount.amazonaws.com" "host/a/b/foo") "1.2.3"
      = "exampleaccount.amazonaws.com/a/b/foo:1.2.3" ∧
    assembleTargetReference
        (buildTargetRepository "exampleaccount.amazonaws.com" "host/a/b/foo") "1.2.3"
      ≠ "exampleaccount.amazonaws.com:foo-1.2.3" ∧
    containsSub "exampleaccount.amazonaws.com" "amazonaws.com" = true ∧
    retagAndPushImageTarget "oci://host/a/b/foo:1.2.3" "registry.example.com"
      = Except.ok "registry.example.com/images/foo:1.2.3" ∧
    retagAndPushImageTarget "oci://host/a/b/foo:1.2.3" "registry.example.com"
      ≠ Except.ok "registry.example.com/a/b/foo:1.2.3" ∧
    containsSub "registry.example.com" "amazonaws.com" = false := by
  exact ⟨by decide, by decide, by decide, by decide, by decide, by decide⟩

/-- C3 amended: the mirror engine's push reference always grafts the original
    hierarchy below the target registry, whatever the target host; only the
    legacy `RetagAndPushImage` helper branches on the `amazonaws.com` marker,
    flattening to `registry:name-tag` for ECR and producing
    `registry/images/name:tag` (the final name segment under a fixed `images/`
    prefix, not the original hierarchy) otherwise. -/
theorem target_naming_amended (targetRegistry repo tag name imageTag : String)
    (hrem : repoRemainder repo ≠ "")
    (htag : goHasPre tag "sha256:" = false) :
    assembleTargetReference (buildTargetRepository targetRegistry repo) tag
      = goTrimSuf targetRegistry "/" ++ "/" ++ repoRemainder repo ++ ":" ++ tag ∧
    (containsSub targetRegistry "amazonaws.com" = true →
      retagImagePushTarget targetRegistry name imageTag
        = targetRegistry ++ ":" ++ name ++ "-" ++ imageTag) ∧
    (containsSub targetRegistry "amazonaws.com" = false →
      retagImagePushTarget targetRegistry name imageTag
        = targetRegistry ++ "/images/" ++ name ++ ":" ++ imageTag) := by
  refine ⟨?_, ?_, ?_⟩
  · simp [assembleTargetReference, buildTargetRepository, hrem, htag]
  · intro h; simp [retagImagePushTarget, h]
  · intro h; simp [retagImagePushTarget, h]

/-- Witness for the amended C3 theorem at concrete inputs. -/
theorem target_naming_amended_witness :
    assembleTargetReference (buildTargetRepository "reg.example.com" "host/a/b/foo") "1.2.3"
      = goTrimSuf "reg.example.com" "/" ++ "/" ++ repoRemainder "host/a/b/foo" ++ ":" ++ "1.2.3" ∧
    (containsSub "reg.example.com" "amazonaws.com" = true →
      retagImagePushTarget "reg.example.com" "foo" "1.2.3"
        = "reg.example.com" ++ ":" ++ "foo" ++ "-" ++ "1.2.3") ∧
    (containsSub "reg.example.com" "amazonaws.com" = false →
      retagImagePushTarget "reg.example.com" "foo" "1.2.3"
        = "reg.example.com" ++ "/images/" ++ "foo" ++ ":" ++ "1.2.3") :=
  target_naming_amended "reg.example.com" "host/a/b/foo" "1.2.3" "foo" "1.2.3"
    (by decide) (by decide)

/-- C4: credential resolution tries the OS keychain first (a hit wins
    regardless of the store), falls through silently on a keychain miss or
    keychain error to the engine's own store, and returns the anonymous
    credential with no error when neither source yields a credential. -/
theorem resolve_keychain_then_store (keychain : KeychainOutcome) (s : CredStore)
    (registry : String) (hreg : registry ≠ "") :
    (∀ c, resolveFromDefaultKeychain keychain = some c →
      resolveRegistryCredential keychain (Except.ok s) registry = Except.ok c) ∧
    (resolveFromDefaultKeychain keychain = none →
      ∀ storeCred, s.lookup registry = some storeCred →
        resolveRegistryCredential keychain (Except.ok s) registry
          = Except.ok (convertStoredCredential storeCred)) ∧
    (resolveFromDefaultKeychain keychain = none → s.lookup registry = none →
      resolveRegistryCredential keychain (Except.ok s) registry
        = Except.ok emptyCredential) ∧
    resolveFromDefaultKeychain KeychainOutcome.resolveError = none ∧
    resolveFromDefaultKeychain KeychainOutcome.anonymous = none ∧
    resolveFromDefaultKeychain KeychainOutcome.authorizationError = none := by
  refine ⟨?_, ?_, ?_, rfl, rfl, rfl⟩
  · intro c hc
    simp [resolveRegistryCredential, hreg, hc]
  · intro hk storeCred hs
    simp [resolveRegistryCredential, GetRegistryCredential, hreg, hk, hs]
  · intro hk hs
    simp [resolveRegistryCredential, GetRegistryCredential, hreg, hk, hs]

/-- Witness for C4 at a concrete host with an empty keychain and empty store. -/
theorem resolve_keychain_then_store_witness :
    resolveRegistryCredential KeychainOutcome.resolveError (Except.ok [])
        "registry.example.com" = Except.ok emptyCredential :=
  (resolve_keychain_then_store KeychainOutcome.resolveError [] "registry.example.com"
      (by decide)).2.2.1 rfl rfl

/-- C7: when the filtered artifact count of a loaded manifest is zero, the pull
    operation errors, except when the manifest path contains the `testdata`
    marker, in which case it succeeds as a no-op. -/
theorem processManifest_empty (manifestPath : String) (manifest : ArtifactManifest)
    (options : PullOptions)
    (h : filteredArtifactTotal (NormalizePullOptions options) manifest = 0) :
    (processManifestCheck manifestPath manifest options = Except.ok false
      ↔ containsSub manifestPath "testdata" = true) ∧
    (containsSub manifestPath "testdata" = false →
      processManifestCheck manifestPath manifest options
        = Except.error "no artifacts found in manifest") := by
  cases hc : containsSub manifestPath "testdata" <;>
    simp [processManifestCheck, h, hc]

/-- Witness for C7: an empty manifest under a `testdata` path is a success
    no-op. -/
theorem processManifest_empty_witness :
    (processManifestCheck "deploy/testdata/manifest.json" {}
        { includeImages := true, includeModels := true, includeCharts := true }
      = Except.ok false
      ↔ containsSub "deploy/testdata/manifest.json" "testdata" = true) ∧
    (containsSub "deploy/testdata/manifest.json" "testdata" = false →
      processManifestCheck "deploy/testdata/manifest.json" {}
          { includeImages := true, includeModels := true, includeCharts := true }
        = Except.error "no artifacts found in manifest") :=
  processManifest_empty "deploy/testdata/manifest.json" {}
    { includeImages := true, includeModels := true, includeCharts := true } (by decide)

/-- C9: every successful credential-store save passes owner-only permission
    bits to the filesystem: `0o700` for the parent directory and `0o600` for
    the store file — neither has any group or world bit set. -/
theorem save_owner_only (store : Except String CredStore) (registry : String)
    (cred : RegistryCredential) (eff : SaveEffect)
    (h : SaveRegistryCredential store registry cred = Except.ok eff) :
    eff.dirPerm = 0o700 ∧ eff.filePerm = 0o600 ∧
    eff.dirPerm % 64 = 0 ∧ eff.filePerm % 64 = 0 := by
  by_cases hr : registry = ""
  · simp [SaveRegistryCredential, hr] at h
  · cases store with
    | error e => simp [SaveRegistryCredential, hr] at h
    | ok s =>
      simp only [SaveRegistryCredential, if_neg hr, Except.ok.injEq] at h
      subst h
      refine ⟨rfl, rfl, ?_, ?_⟩ <;> norm_num

/-- Witness for C9 at a concrete save into an empty store. -/
theorem save_owner_only_witness :
    ({ dirPerm := 0o700, filePerm := 0o600,
       contents := [("registry.example.com", ({} : RegistryCredential))] } :
        SaveEffect).dirPerm = 0o700 ∧
    ({ dirPerm := 0o700, filePerm := 0o600,
       contents := [("registry.example.com", ({} : RegistryCredential))] } :
        SaveEffect).filePerm = 0o600 ∧
    ({ dirPerm := 0o700, filePerm := 0o600,
       contents := [("registry.example.com", ({} : RegistryCredential))] } :
        SaveEffect).dirPerm % 64 = 0 ∧
    ({ dirPerm := 0o700, filePerm := 0o600,
       contents := [("registry.example.com", ({} : RegistryCredential))] } :
        SaveEffect).filePerm % 64 = 0 :=
  save_owner_only (Except.ok []) "registry.example.com" {}
    { dirPerm := 0o700, filePerm := 0o600,
      contents := [("registry.example.com", {})] } rfl

/-- C5: the mirror engine pushes images in manifest order and halts the whole
    operation at the first push failure: when every image before the failing
    one is pushed successfully, the attempted pushes are exactly the plans for
    the preceding images (in order) followed by the failing push, the result is
    the failing push's error, and nothing after the failure is pushed — unlike
    pull, which continues past individual failures. -/
theorem mirror_halts_on_first_failure (push : String → String → Option String)
    (cacheDir targetRegistry : String) (pre post : List String) (bad : String)
    (plans : List (String × String)) (badPlan : String × String) (err : String)
    (hpre : List.Forall₂ (fun imageRef plan =>
        imagePushPlan cacheDir targetRegistry imageRef = Except.ok plan ∧
        push plan.1 plan.2 = none) pre plans)
    (hbadPlan : imagePushPlan cacheDir targetRegistry bad = Except.ok badPlan)
    (hbadPush : push badPlan.1 badPlan.2 = some err) :
    mirrorContainerImages push cacheDir targetRegistry (pre ++ bad :: post)
      = (plans ++ [badPlan], some err) := by
  induction hpre with
  | nil => simp [mirrorContainerImages, hbadPlan, hbadPush]
  | @cons imageRef plan pre' plans' h _ ih =>
    obtain ⟨hplan, hpush⟩ := h
    simp [mirrorContainerImages, hplan, hpush, ih]

/-- Witness for C5: three images where the second push fails — the third is
    never attempted. -/
theorem mirror_halts_witness :
    mirrorContainerImages
        (fun _ ref => if ref = "target.example.com/a/img2:v2" then some "boom" else none)
        "cache" "target.example.com"
        ["oci://h/a/img1:v1", "oci://h/a/img2:v2", "oci://h/a/img3:v3"]
      = ([("cache/img1.tar", "target.example.com/a/img1:v1"),
          ("cache/img2.tar", "target.example.com/a/img2:v2")], some "boom") :=
  mirror_halts_on_first_failure
    (fun _ ref => if ref = "target.example.com/a/img2:v2" then some "boom" else none)
    "cache" "target.example.com"
    ["oci://h/a/img1:v1"] ["oci://h/a/img3:v3"] "oci://h/a/img2:v2"
    [("cache/img1.tar", "target.example.com/a/img1:v1")]
    ("cache/img2.tar", "target.example.com/a/img2:v2") "boom"
    (List.Forall₂.cons ⟨by decide, by decide⟩ List.Forall₂.nil) (by decide) (by decide)

/-- Replaying the tar stream emitted for a walked tree reproduces the tree. -/
theorem extract_map_toTar (tree : FsTree) :
    ExtractArchive (tree.map fun e =>
      match e.2 with
      | FsEntry.dir => TarEntry.dir e.1
      | FsEntry.file content => TarEntry.reg e.1 content) = Except.ok tree := by
  induction tree with
  | nil => rfl
  | cons e rest ih =>
    obtain ⟨p, entry⟩ := e
    cases entry <;> simp [ExtractArchive, ih]

/-- An unsupported entry anywhere in the stream makes extraction fail. -/
theorem extract_other_error (entries : List TarEntry) (path : String) (typeflag : Nat)
    (h : TarEntry.other path typeflag ∈ entries) :
    ∃ msg, ExtractArchive entries = Except.error msg := by
  induction entries with
  | nil => cases h
  | cons e rest ih =>
    rcases List.mem_cons.mp h with he | hrest
    · cases he
      exact ⟨_, rfl⟩
    · cases e with
      | dir p =>
        obtain ⟨msg, hmsg⟩ := ih hrest
        exact ⟨msg, by simp [ExtractArchive, hmsg]⟩
      | reg p c =>
        obtain ⟨msg, hmsg⟩ := ih hrest
        exact ⟨msg, by simp [ExtractArchive, hmsg]⟩
      | other p f => exact ⟨_, rfl⟩

/-- Looking up `manifest.json` after the overwrite-in-place branch of
    `writeManifestFile`. -/
theorem lookup_map_replace (cache : FsTree) (manifest : ArtifactManifest)
    (h : cache.any (fun e => e.1 = "manifest.json") = true) :
    (cache.map (fun e =>
        if e.1 = "manifest.json" then (e.1, FsEntry.file (marshalManifest manifest))
        else e)).lookup "manifest.json"
      = some (FsEntry.file (marshalManifest manifest)) := by
  induction cache with
  | nil => simp at h
  | cons e rest ih =>
    obtain ⟨k, v⟩ := e
    by_cases hk : k = "manifest.json"
    · subst hk
      simp [List.lookup]
    · simp only [List.any_cons, Bool.or_eq_true, decide_eq_true_eq] at h
      rcases h with h | h
      · exact absurd h hk
      · have hne : ("manifest.json" == k) = false := by
          simp only [beq_eq_false_iff_ne, ne_eq]
          exact fun hc => hk hc.symm
        have hif : (if (k, v).1 = "manifest.json"
              then ((k, v).1, FsEntry.file (marshalManifest manifest)) else (k, v))
            = (k, v) := by
          simp [hk]
        rw [List.map_cons, hif]
        simp only [List.lookup, hne]
        exact ih h

/-- Lookups at paths other than `manifest.json` are unchanged by the
    overwrite-in-place branch of `writeManifestFile`. -/
theorem lookup_map_other (cache : FsTree) (manifest : ArtifactManifest)
    (p : String) (hp : p ≠ "manifest.json") :
    (cache.map (fun e =>
        if e.1 = "manifest.json" then (e.1, FsEntry.file (marshalManifest manifest))
        else e)).lookup p = cache.lookup p := by
  induction cache with
  | nil => rfl
  | cons e rest ih =>
    obtain ⟨k, v⟩ := e
    by_cases hk : k = "manifest.json"
    · subst hk
      have hne : (p == "manifest.json") = false := by
        simp only [beq_eq_false_iff_ne, ne_eq]
        exact fun hc => hp hc
      simp [List.lookup, hne, ih]
    · simp only [List.map_cons]
      rw [if_neg (by exact hk)]
      simp only [List.lookup]
      cases hpk : (p == k) <;> simp [hpk, ih]

/-- C8: importing the archive produced by export reproduces a destination tree
    whose `manifest.json` bytes are exactly the serialized exported manifest
    and whose other paths carry exactly the cache directory's entries (same
    relative paths, same contents, nothing more); and any unsupported entry
    type in an import stream is a hard error. -/
theorem export_import_roundtrip (manifest : ArtifactManifest) (cache : FsTree)
    (entries : List TarEntry) :
    (∃ dest, ExtractArchive (ExportArtifacts manifest cache) = Except.ok dest ∧
      dest.lookup "manifest.json" = some (FsEntry.file (marshalManifest manifest)) ∧
      ∀ p, p ≠ "manifest.json" → dest.lookup p = cache.lookup p) ∧
    (∀ path typeflag, TarEntry.other path typeflag ∈ entries →
      ∃ msg, ExtractArchive entries = Except.error msg) := by
  refine ⟨⟨writeManifestFile manifest cache, extract_map_toTar _, ?_, ?_⟩,
    fun path typeflag h => extract_other_error entries path typeflag h⟩
  · unfold writeManifestFile
    split
    · exact lookup_map_replace cache manifest (by assumption)
    · simp [List.lookup]
  · intro p hp
    unfold writeManifestFile
    split
    · exact lookup_map_other cache manifest p hp
    · have hne : (p == "manifest.json") = false := by
        simp [BEq.beq]
        exact fun hc => hp hc
      simp [List.lookup, hne]

/-- Witness for C8: a one-file cache with a nested subdirectory round-trips,
    and a stream holding a symlink-like entry errors. -/
theorem export_import_roundtrip_witness :
    (∃ dest, ExtractArchive (ExportArtifacts {}
        [("sub", FsEntry.dir), ("sub/model.tar", FsEntry.file "bytes")])
        = Except.ok dest ∧
      dest.lookup "manifest.json" = some (FsEntry.file (marshalManifest {})) ∧
      ∀ p, p ≠ "manifest.json" → dest.lookup p
        = [("sub", FsEntry.dir), ("sub/model.tar", FsEntry.file "bytes")].lookup p) ∧
    (∀ path typeflag, TarEntry.other path typeflag ∈ [TarEntry.other "link" 50] →
      ∃ msg, ExtractArchive [TarEntry.other "link" 50] = Except.error msg) :=
  export_import_roundtrip {} [("sub", FsEntry.dir), ("sub/model.tar", FsEntry.file "bytes")]
    [TarEntry.other "link" 50]

end Dynactl
